import Mathlib

set_option autoImplicit false
set_option maxRecDepth 8192

/-!
Verification of the SCM history graph view model and the Git history provider.

The view-model side embeds SCMHistoryViewModel
(src/vs/workbench/contrib/scm/browser/scmHistoryViewPane.ts, lines 594-764 of
the concatenated source file): per-repository cached state, load-more paging,
and the graph color map.  The provider side embeds GitHistoryProvider
(extensions/git/src/historyProvider.ts).  Asynchronous provider calls are
embedded as explicit functions returning Except (a rejected promise is an
error value); the per-repository mutable state map is embedded as explicit
state passing for a single repository.
-/

/- ## Data model (ISCMHistoryItemGroup, common/history.ts) -/

/-- A linked lineage pointer: the remote or base counterpart of the current
history item group (fields id, name, revision). -/
structure HistoryItemGroupRef where
  id : String
  name : String
  revision : Option String
deriving Repr, DecidableEq

/-- The current history item group: a named lineage with optional remote and
base (merge-base) counterparts. -/
structure HistoryItemGroup where
  id : String
  name : String
  revision : Option String
  remote : Option HistoryItemGroupRef
  base : Option HistoryItemGroupRef
deriving Repr, DecidableEq

/-- Options of one provideHistoryItems request issued by the view model
(historyItemGroupIds, limit, skip). -/
structure ProviderOptions where
  historyItemGroupIds : List String
  limit : Int
  skip : Nat
deriving Repr, DecidableEq

/-- The history provider as consumed by the view model: the current history
item group observable, and the asynchronous provideHistoryItems call.  A
rejected promise is an error value; a fulfilled promise carries the optional
item array (the view model applies a nullish-coalescing fallback to []). -/
structure ProviderIface (Item : Type) where
  currentHistoryItemGroup : Option HistoryItemGroup
  provideHistoryItems : ProviderOptions → Except String (Option (List Item))

/-- Value of the private observable this._historyItemGroupFilter:
the literal values all and auto, or an explicit id array. -/
inductive FilterValue where
  | all
  | auto
  | ids (ids : List String)
deriving Repr, DecidableEq

/-- Per-repository cached state (type HistoryItemState at line 561 of the
source): the history item group snapshot used for the cached page, the
accumulated items, and the loadMore flag. -/
structure HistoryItemState (Item : Type) where
  currentHistoryItemGroup : HistoryItemGroup
  items : List Item
  loadMore : Bool

/-- The SCMHistoryViewModel together with its environment, restricted to a
single repository: whether this.repository.get() resolves, the repository's
history provider, the filter observable, the scm.graph.pageSize configuration
value, and the cached per-repository state (this._state.get(repository)). -/
structure Model (Item : Type) where
  repositoryPresent : Bool
  historyProvider : Option (ProviderIface Item)
  filter : FilterValue
  pageSize : Int
  state : Option (HistoryItemState Item)

/-- Modelled from the spec: clamp from base/common/numbers.ts is not under
src/; the spec bounds the configured page size to the interval of the two
arguments, matching min (max value lo) hi. -/
def clamp (value lo hi : Int) : Int :=
  min (max value lo) hi

/-- Color identifier of the local history item group.  The color registration
lives in scmHistory.ts, which is not under src/; the registered identifier
string is used directly. -/
def historyItemGroupLocal : String := "scmGraph.historyItemGroupLocal"

/-- Color identifier of the remote history item group (see
historyItemGroupLocal). -/
def historyItemGroupRemote : String := "scmGraph.historyItemGroupRemote"

/-- Color identifier of the base history item group (see
historyItemGroupLocal). -/
def historyItemGroupBase : String := "scmGraph.historyItemGroupBase"

/-- JavaScript Map.set on an insertion-ordered entry list: replaces the value
in place when the key is present, otherwise appends the new entry. -/
def jsMapSet (entries : List (String × String)) (k v : String) :
    List (String × String) :=
  if entries.any (fun p => p.1 = k) then
    entries.map (fun p => if p.1 = k then (k, v) else p)
  else
    entries ++ [(k, v)]

/-- SCMHistoryViewModel._getGraphColorMap (lines 743-758): the map starts with
the local name, then the remote name (if present), then the base name (if
present); if the filter observable is the literal all, a wildcard entry with
the empty color is added. -/
def getGraphColorMap (g : HistoryItemGroup) (filter : FilterValue) :
    List (String × String) :=
  let m0 := [(g.name, historyItemGroupLocal)]
  let m1 := match g.remote with
    | some r => jsMapSet m0 r.name historyItemGroupRemote
    | none => m0
  let m2 := match g.base with
    | some b => jsMapSet m1 b.name historyItemGroupBase
    | none => m1
  if filter = FilterValue.all then jsMapSet m2 "*" "" else m2

/-- A history item annotated for rendering.  Modelled from the spec:
toISCMHistoryItemViewModelArray (scmHistory.ts, not under src/) returns the
full ordered list of view models, one per cached item in order, each
annotated with colors resolved through the color map. -/
structure HistoryItemViewModel (Item : Type) where
  historyItem : Item
  colorMap : List (String × String)
deriving Repr, DecidableEq

/-- Modelled from the spec: toISCMHistoryItemViewModelArray (scmHistory.ts,
not under src/) maps the accumulated items, in order, to view models
annotated with the color map. -/
def toISCMHistoryItemViewModelArray {Item : Type} (items : List Item)
    (colorMap : List (String × String)) : List (HistoryItemViewModel Item) :=
  items.map (fun i => { historyItem := i, colorMap := colorMap })

/-- The derived observable this.historyItemGroupFilter (lines 628-651): an
explicit id array is returned as is; all becomes the empty array; auto reads
the fresh current history item group of the repository's provider and lists
its revision (or id) together with those of its remote and base. -/
def historyItemGroupFilter {Item : Type} (m : Model Item) : List String :=
  match m.filter with
  | FilterValue.ids l => l
  | FilterValue.all => []
  | FilterValue.auto =>
    let g? : Option HistoryItemGroup :=
      if m.repositoryPresent then
        m.historyProvider.bind (fun hp => hp.currentHistoryItemGroup)
      else none
    match g? with
    | none => []
    | some g =>
      [g.revision.getD g.id]
        ++ (match g.remote with
            | some r => [r.revision.getD r.id]
            | none => [])
        ++ (match g.base with
            | some b => [b.revision.getD b.id]
            | none => [])

/-- The provideHistoryItems request built at lines 712-716: the group-id
filter, the page size clamped to the interval 1 to 1000, and a skip equal to
the number of already accumulated items. -/
def mkProviderOptions {Item : Type} (m : Model Item) (skip : Nat) :
    ProviderOptions :=
  { historyItemGroupIds := historyItemGroupFilter m
    limit := clamp m.pageSize 1 1000
    skip := skip }

/-- Result of one getHistoryItems invocation: the provideHistoryItems calls
it performed, and either the returned view models with the updated model, or
the propagated rejection. -/
structure GetOutcome (Item : Type) where
  calls : List ProviderOptions
  outcome : Except String (List (HistoryItemViewModel Item) × Model Item)

/-- Rendering of the cached items (lines 728-736): build the color map from
the current history item group and map the items to colored view models. -/
def renderItems {Item : Type} (m : Model Item) (g : HistoryItemGroup)
    (items : List Item) : List (HistoryItemViewModel Item) :=
  toISCMHistoryItemViewModelArray items (getGraphColorMap g m.filter)

/-- The fetch path of getHistoryItems (lines 709-726): build the request,
await the provider, append the returned page (or [] for a nullish result) to
the accumulated items, store the new state with loadMore cleared.  A
provider rejection propagates: the state write at line 725 is never
reached. -/
def fetchPage {Item : Type} (m : Model Item) (hp : ProviderIface Item)
    (g : HistoryItemGroup) (existing : List Item) : GetOutcome Item :=
  let opts := mkProviderOptions m existing.length
  match hp.provideHistoryItems opts with
  | Except.error e => { calls := [opts], outcome := Except.error e }
  | Except.ok page =>
    let items := existing ++ page.getD []
    let st : HistoryItemState Item :=
      { currentHistoryItemGroup := g, items := items, loadMore := false }
    { calls := [opts]
      outcome := Except.ok (renderItems m g items, { m with state := some st }) }

/-- SCMHistoryViewModel.getHistoryItems (lines 695-737).  No repository, no
provider, or no resolvable current history item group returns the empty
list; a cached state not marked loadMore is rendered directly with zero
provider calls; otherwise the next page is fetched.  The current history
item group is the cached snapshot when state exists, else the provider's
fresh value. -/
def getHistoryItems {Item : Type} (m : Model Item) : GetOutcome Item :=
  if m.repositoryPresent = false then
    { calls := [], outcome := Except.ok ([], m) }
  else
    match m.historyProvider with
    | none => { calls := [], outcome := Except.ok ([], m) }
    | some hp =>
      match m.state with
      | some st =>
        if st.loadMore then
          fetchPage m hp st.currentHistoryItemGroup st.items
        else
          { calls := []
            outcome := Except.ok
              (renderItems m st.currentHistoryItemGroup st.items, m) }
      | none =>
        match hp.currentHistoryItemGroup with
        | none => { calls := [], outcome := Except.ok ([], m) }
        | some g => fetchPage m hp g []

/-- SCMHistoryViewModel.setLoadMore (lines 686-693): a no-op when no cached
state exists, otherwise replaces the state with the loadMore flag set to the
given value. -/
def setLoadMore {Item : Type} (m : Model Item) (loadMore : Bool) :
    Model Item :=
  match m.state with
  | none => m
  | some st => { m with state := some { st with loadMore := loadMore } }

/-- SCMHistoryViewModel.clearRepositoryState (lines 677-684): a no-op when no
repository resolves, otherwise drops the cached state. -/
def clearRepositoryState {Item : Type} (m : Model Item) : Model Item :=
  if m.repositoryPresent = false then m else { m with state := none }

/-- The cached accumulated items of the repository (state?.items ?? []). -/
def cachedItems {Item : Type} (m : Model Item) : List Item :=
  match m.state with
  | some st => st.items
  | none => []

/- ## C1: cache hit is idempotent and performs no provider call -/

/-- On a cache hit (state exists, loadMore false) getHistoryItems performs no
provider call and leaves the model unchanged. -/
theorem getHistoryItems_cacheHit {Item : Type} (m : Model Item)
    (st : HistoryItemState Item) (hst : m.state = some st)
    (hlm : st.loadMore = false) :
    ∃ l, getHistoryItems m = ⟨[], Except.ok (l, m)⟩ := by
  unfold getHistoryItems
  cases hrep : m.repositoryPresent with
  | false => exact ⟨[], by simp⟩
  | true =>
    cases hhp : m.historyProvider with
    | none => exact ⟨[], by simp⟩
    | some hp =>
      refine ⟨renderItems m st.currentHistoryItemGroup st.items, ?_⟩
      simp [hst, hlm]

/-- C1: for a repository with cached state whose loadMore flag is false, a
second getHistoryItems call with no intervening clearRepositoryState or
setLoadMore(true) returns the identical list and performs zero additional
provideHistoryItems calls. -/
theorem getHistoryItems_cacheHit_idempotent {Item : Type} (m : Model Item)
    (st : HistoryItemState Item) (hst : m.state = some st)
    (hlm : st.loadMore = false) :
    ∃ l m1, getHistoryItems m = ⟨[], Except.ok (l, m1)⟩ ∧
      getHistoryItems m1 = ⟨[], Except.ok (l, m1)⟩ := by
  obtain ⟨l, hl⟩ := getHistoryItems_cacheHit m st hst hlm
  exact ⟨l, m, hl, hl⟩

/-- Concrete repository state used by the C1 witness. -/
def c1Group : HistoryItemGroup :=
  { id := "refs/heads/main", name := "main", revision := some "c2"
    remote := none, base := none }

/-- Concrete model used by the C1 witness: one repository with two cached
items and loadMore false. -/
def c1Model : Model Nat :=
  { repositoryPresent := true
    historyProvider := some
      { currentHistoryItemGroup := some c1Group
        provideHistoryItems := fun _ => Except.ok (some []) }
    filter := FilterValue.auto
    pageSize := 50
    state := some { currentHistoryItemGroup := c1Group, items := [1, 2], loadMore := false } }

/-- Witness for C1 at a concrete model with two cached items. -/
theorem getHistoryItems_cacheHit_idempotent_witness :
    ∃ l m1, getHistoryItems c1Model = ⟨[], Except.ok (l, m1)⟩ ∧
      getHistoryItems m1 = ⟨[], Except.ok (l, m1)⟩ :=
  getHistoryItems_cacheHit_idempotent c1Model
    { currentHistoryItemGroup := c1Group, items := [1, 2], loadMore := false }
    rfl rfl

/- ## C8: unresolvable provider or group yields the empty result -/

/-- The current history item group resolved at line 703: the cached snapshot
when state exists, else the provider's fresh observable value. -/
def resolvedGroup {Item : Type} (m : Model Item) : Option HistoryItemGroup :=
  match m.state with
  | some st => some st.currentHistoryItemGroup
  | none => m.historyProvider.bind (fun hp => hp.currentHistoryItemGroup)

/-- C8: when no history provider or no current history item group is
resolvable, getHistoryItems returns the empty list, without error and
without any provider call. -/
theorem getHistoryItems_empty_when_unresolvable {Item : Type} (m : Model Item)
    (hrep : m.repositoryPresent = true)
    (h : m.historyProvider = none ∨ resolvedGroup m = none) :
    getHistoryItems m = ⟨[], Except.ok ([], m)⟩ := by
  unfold getHistoryItems
  rcases h with h | h
  · simp [hrep, h]
  · cases hhp : m.historyProvider with
    | none => simp [hrep]
    | some hp =>
      cases hst : m.state with
      | some st => exact absurd h (by simp [resolvedGroup, hst])
      | none =>
        have hg : hp.currentHistoryItemGroup = none := by
          simpa [resolvedGroup, hst, hhp] using h
        simp [hrep, hst, hg]

/-- Concrete model used by the C8 witness: a repository whose provider is
gone. -/
def c8Model : Model Nat :=
  { repositoryPresent := true, historyProvider := none
    filter := FilterValue.all, pageSize := 50, state := none }

/-- Witness for C8 at a concrete model with no provider. -/
theorem getHistoryItems_empty_when_unresolvable_witness :
    getHistoryItems c8Model = ⟨[], Except.ok ([], c8Model)⟩ :=
  getHistoryItems_empty_when_unresolvable c8Model rfl (Or.inl rfl)

/- ## C7: shape of every request that reaches the provider -/

/-- The single request issued by the fetch path. -/
theorem fetchPage_calls {Item : Type} (m : Model Item) (hp : ProviderIface Item)
    (g : HistoryItemGroup) (existing : List Item) :
    (fetchPage m hp g existing).calls = [mkProviderOptions m existing.length] := by
  simp only [fetchPage]
  cases hh : hp.provideHistoryItems (mkProviderOptions m existing.length) <;> simp [hh]

/-- getHistoryItems performs either no provider call or exactly the one
request built from the filter, the clamped page size, and the cached item
count. -/
theorem getHistoryItems_calls_cases {Item : Type} (m : Model Item) :
    (getHistoryItems m).calls = [] ∨
      (getHistoryItems m).calls = [mkProviderOptions m (cachedItems m).length] := by
  unfold getHistoryItems
  split
  · exact Or.inl rfl
  · split
    · exact Or.inl rfl
    · rename_i hp
      split
      · rename_i st heq
        split
        · rw [fetchPage_calls]
          exact Or.inr (by simp [cachedItems, heq])
        · exact Or.inl rfl
      · rename_i heq
        split
        · exact Or.inl rfl
        · rename_i g hg
          rw [fetchPage_calls]
          exact Or.inr (by simp [cachedItems, heq])

/-- C7: every request reaching the provider has limit equal to the page size
clamped to the interval 1 to 1000, and skip equal to the number of already
accumulated cached items. -/
theorem getHistoryItems_request_shape {Item : Type} (m : Model Item)
    (opts : ProviderOptions) (h : opts ∈ (getHistoryItems m).calls) :
    opts.limit = clamp m.pageSize 1 1000 ∧
      opts.skip = (cachedItems m).length := by
  rcases getHistoryItems_calls_cases m with hc | hc
  · rw [hc] at h
    simp at h
  · rw [hc] at h
    rw [List.mem_singleton] at h
    subst h
    exact ⟨rfl, rfl⟩

/-- Concrete model used by the C7 witness: no cached state, so the fetch
path issues one request. -/
def c7Model : Model Nat :=
  { repositoryPresent := true
    historyProvider := some
      { currentHistoryItemGroup := some c1Group
        provideHistoryItems := fun _ => Except.ok (some [1]) }
    filter := FilterValue.ids ["refs/heads/main"]
    pageSize := 5000
    state := none }

/-- Witness for C7: the request of a concrete first fetch has the clamped
limit and skip zero. -/
theorem getHistoryItems_request_shape_witness :
    (mkProviderOptions c7Model 0).limit = clamp c7Model.pageSize 1 1000 ∧
      (mkProviderOptions c7Model 0).skip = (cachedItems c7Model).length :=
  getHistoryItems_request_shape c7Model (mkProviderOptions c7Model 0)
    (by rw [show (getHistoryItems c7Model).calls = [mkProviderOptions c7Model 0] from rfl]
        exact List.mem_singleton.mpr rfl)

/- ## C6: clearRepositoryState forces a refetch from offset zero -/

/-- C6: after clearRepositoryState, the next getHistoryItems call performs
exactly one provideHistoryItems call, and its skip is 0. -/
theorem clear_then_get_requests_skip_zero {Item : Type} (m : Model Item)
    (hp : ProviderIface Item) (g : HistoryItemGroup)
    (hrep : m.repositoryPresent = true)
    (hhp : m.historyProvider = some hp)
    (hg : hp.currentHistoryItemGroup = some g) :
    (getHistoryItems (clearRepositoryState m)).calls =
      [mkProviderOptions (clearRepositoryState m) 0] ∧
      (mkProviderOptions (clearRepositoryState m) 0).skip = 0 := by
  refine ⟨?_, rfl⟩
  obtain ⟨rep, hpv, filt, ps, st?⟩ := m
  have hrep1 : rep = true := hrep
  have hhp1 : hpv = some hp := hhp
  subst hrep1
  subst hhp1
  have h1 : clearRepositoryState (⟨true, some hp, filt, ps, st?⟩ : Model Item)
      = ⟨true, some hp, filt, ps, none⟩ := rfl
  rw [h1]
  unfold getHistoryItems
  simp [hg, fetchPage_calls]

/-- Concrete model used by the C6 witness: cached items exist and are then
dropped. -/
def c6Model : Model Nat :=
  { repositoryPresent := true
    historyProvider := some
      { currentHistoryItemGroup := some c1Group
        provideHistoryItems := fun _ => Except.ok (some [1, 2]) }
    filter := FilterValue.all
    pageSize := 2
    state := some { currentHistoryItemGroup := c1Group, items := [1, 2, 3], loadMore := false } }

/-- Witness for C6 at a concrete model with three cached items. -/
theorem clear_then_get_requests_skip_zero_witness :
    (getHistoryItems (clearRepositoryState c6Model)).calls =
      [mkProviderOptions (clearRepositoryState c6Model) 0] ∧
      (mkProviderOptions (clearRepositoryState c6Model) 0).skip = 0 :=
  clear_then_get_requests_skip_zero c6Model
    { currentHistoryItemGroup := some c1Group
      provideHistoryItems := fun _ => Except.ok (some [1, 2]) }
    c1Group rfl rfl rfl

/- ## C2: load more appends the next page, leaving the prefix unchanged -/

/-- The view-model array keeps one entry per item. -/
theorem toVM_length {Item : Type} (items : List Item)
    (cm : List (String × String)) :
    (toISCMHistoryItemViewModelArray items cm).length = items.length := by
  simp [toISCMHistoryItemViewModelArray]

/-- Projecting the history items back out of the view-model array returns the
items unchanged. -/
theorem toVM_map_historyItem {Item : Type} (items : List Item)
    (cm : List (String × String)) :
    (toISCMHistoryItemViewModelArray items cm).map (fun vm => vm.historyItem)
      = items := by
  induction items with
  | nil => rfl
  | cons a t ih =>
    simp only [toISCMHistoryItemViewModelArray, List.map_cons] at ih ⊢
    rw [ih]

/-- Taking a prefix of the view-model array renders the prefix of the
items. -/
theorem toVM_take {Item : Type} (items : List Item)
    (cm : List (String × String)) (n : Nat) :
    (toISCMHistoryItemViewModelArray items cm).take n
      = toISCMHistoryItemViewModelArray (items.take n) cm := by
  unfold toISCMHistoryItemViewModelArray
  rw [List.map_take]

/-- C2: for a repository with cached items, after setLoadMore(repository,
true) the next getHistoryItems call performs the one paged request and
returns a list whose length is the cached length plus the size of the
returned page, whose items are exactly the cached items followed by the new
page: the first N items are unchanged and in the same order. -/
theorem loadMore_appends_page {Item : Type} (m : Model Item)
    (st : HistoryItemState Item) (hp : ProviderIface Item)
    (page : Option (List Item))
    (hst : m.state = some st)
    (hrep : m.repositoryPresent = true)
    (hhp : m.historyProvider = some hp)
    (hpage : hp.provideHistoryItems
        (mkProviderOptions (setLoadMore m true) st.items.length) =
      Except.ok page) :
    ∃ l m1,
      getHistoryItems (setLoadMore m true) =
        ⟨[mkProviderOptions (setLoadMore m true) st.items.length],
          Except.ok (l, m1)⟩ ∧
      l.length = st.items.length + (page.getD []).length ∧
      (l.take st.items.length).map (fun vm => vm.historyItem) = st.items ∧
      l.map (fun vm => vm.historyItem) = st.items ++ page.getD [] := by
  obtain ⟨rep, hpv, filt, ps, st?⟩ := m
  have hrep1 : rep = true := hrep
  have hhp1 : hpv = some hp := hhp
  have hst1 : st? = some st := hst
  subst hrep1
  subst hhp1
  subst hst1
  refine ⟨renderItems (setLoadMore (⟨true, some hp, filt, ps, some st⟩ : Model Item) true)
      st.currentHistoryItemGroup (st.items ++ page.getD []),
    ⟨true, some hp, filt, ps,
      some ⟨st.currentHistoryItemGroup, st.items ++ page.getD [], false⟩⟩, ?_, ?_, ?_, ?_⟩
  · simp only [setLoadMore] at hpage ⊢
    unfold getHistoryItems fetchPage
    simp [hpage]
  · simp [renderItems, toVM_length]
  · rw [renderItems, toVM_take, toVM_map_historyItem, List.take_left]
  · rw [renderItems, toVM_map_historyItem]

/-- Concrete model used by the C2 witness: two cached items, the provider
returns a one-item page. -/
def c2Model : Model Nat :=
  { repositoryPresent := true
    historyProvider := some
      { currentHistoryItemGroup := some c1Group
        provideHistoryItems := fun _ => Except.ok (some [3]) }
    filter := FilterValue.ids []
    pageSize := 2
    state := some { currentHistoryItemGroup := c1Group, items := [1, 2], loadMore := false } }

/-- Witness for C2 at a concrete model: two cached items plus a one-item
page. -/
theorem loadMore_appends_page_witness :
    ∃ l m1,
      getHistoryItems (setLoadMore c2Model true) =
        ⟨[mkProviderOptions (setLoadMore c2Model true) 2], Except.ok (l, m1)⟩ ∧
      l.length = 2 + 1 ∧
      (l.take 2).map (fun vm => vm.historyItem) = [1, 2] ∧
      l.map (fun vm => vm.historyItem) = [1, 2] ++ [3] :=
  loadMore_appends_page c2Model
    { currentHistoryItemGroup := c1Group, items := [1, 2], loadMore := false }
    { currentHistoryItemGroup := some c1Group
      provideHistoryItems := fun _ => Except.ok (some [3]) }
    (some [3]) rfl rfl rfl rfl

/- ## C4: color of a name shared by the remote and base groups -/

/-- Map.set with a key that no entry holds leaves all entries unchanged. -/
theorem map_set_not_mem (l : List (String × String)) (k v : String)
    (h : ∀ p ∈ l, p.1 ≠ k) :
    l.map (fun p => if p.1 = k then (k, v) else p) = l := by
  induction l with
  | nil => rfl
  | cons hd tl ih =>
    rw [List.map_cons, if_neg (h hd (List.mem_cons_self hd tl)),
      ih (fun p hp => h p (List.mem_cons_of_mem hd hp))]

/-- Filtering for a key that no entry holds gives the empty list. -/
theorem filter_eq_nil_of_not_key (l : List (String × String)) (k : String)
    (h : ∀ p ∈ l, p.1 ≠ k) :
    l.filter (fun p => p.1 = k) = [] := by
  induction l with
  | nil => rfl
  | cons hd tl ih =>
    rw [List.filter_cons]
    simp only [h hd (List.mem_cons_self hd tl), decide_False, if_false]
    exact ih (fun p hp => h p (List.mem_cons_of_mem hd hp))

/-- Map.set never changes the key sequence of the entries it replaces. -/
theorem map_fst_set (l : List (String × String)) (k v : String) :
    l.map (Prod.fst ∘ fun p => if p.1 = k then (k, v) else p)
      = l.map Prod.fst := by
  induction l with
  | nil => rfl
  | cons hd tl ih =>
    rw [List.map_cons, List.map_cons, ih]
    by_cases hk : hd.1 = k
    · rw [Function.comp_apply, if_pos hk, hk]
    · rw [Function.comp_apply, if_neg hk]

/-- Map.set preserves distinctness of the keys. -/
theorem jsMapSet_nodupKeys (l : List (String × String)) (k v : String)
    (h : (l.map Prod.fst).Nodup) :
    ((jsMapSet l k v).map Prod.fst).Nodup := by
  unfold jsMapSet
  by_cases hany : (l.any fun p => decide (p.1 = k)) = true
  · rw [if_pos hany, List.map_map, map_fst_set]
    exact h
  · rw [if_neg hany, List.map_append]
    have hnot : k ∉ l.map Prod.fst := by
      intro hmem
      apply hany
      rw [List.any_eq_true]
      obtain ⟨p, hp, hpk⟩ := List.mem_map.mp hmem
      exact ⟨p, hp, by simp [hpk]⟩
    rw [List.nodup_append]
    refine ⟨h, List.nodup_singleton k, ?_⟩
    intro a ha hb
    rw [List.map_singleton, List.mem_singleton] at hb
    have hb2 : a = k := hb
    exact hnot (hb2 ▸ ha)

/-- After Map.set with key k, the entries for k are exactly the new one,
provided the keys were distinct. -/
theorem jsMapSet_filter_self (l : List (String × String)) (k v : String)
    (hnd : (l.map Prod.fst).Nodup) :
    (jsMapSet l k v).filter (fun p => p.1 = k) = [(k, v)] := by
  induction l with
  | nil => simp [jsMapSet]
  | cons hd tl ih =>
    rw [List.map_cons, List.nodup_cons] at hnd
    obtain ⟨hhd, htl⟩ := hnd
    by_cases hk : hd.1 = k
    · have hknotin : ∀ p ∈ tl, p.1 ≠ k := by
        intro p hp hpk
        exact hhd (by rw [hk, ← hpk]; exact List.mem_map_of_mem Prod.fst hp)
      have hmap := map_set_not_mem tl k v hknotin
      have hfil := filter_eq_nil_of_not_key tl k hknotin
      have hany : ((hd :: tl).any fun p => decide (p.1 = k)) = true := by
        simp [hk]
      unfold jsMapSet
      rw [if_pos hany, List.map_cons, if_pos hk, hmap, List.filter_cons]
      simp [hfil]
    · have ih2 := ih htl
      unfold jsMapSet at ih2 ⊢
      by_cases htlany : (tl.any fun p => decide (p.1 = k)) = true
      · rw [if_pos htlany] at ih2
        have hany : ((hd :: tl).any fun p => decide (p.1 = k)) = true := by
          simp [htlany]
        rw [if_pos hany, List.map_cons, if_neg hk, List.filter_cons]
        simp only [hk, decide_False, if_false]
        exact ih2
      · rw [if_neg htlany] at ih2
        have hany : ¬((hd :: tl).any fun p => decide (p.1 = k)) = true := by
          simp only [List.any_cons, Bool.or_eq_true]
          rintro (h1 | h2)
          · exact hk (of_decide_eq_true h1)
          · exact htlany h2
        rw [if_neg hany, List.cons_append, List.filter_cons]
        simp only [hk, decide_False, if_false]
        exact ih2

/-- Replacing the entries of key k does not change the entries filtered for
another key. -/
theorem filter_map_set_ne (l : List (String × String)) (k v k2 : String)
    (hk : k2 ≠ k) :
    (l.map (fun p => if p.1 = k then (k, v) else p)).filter
        (fun p => p.1 = k2)
      = l.filter (fun p => p.1 = k2) := by
  induction l with
  | nil => rfl
  | cons hd tl ih =>
    rw [List.map_cons, List.filter_cons, List.filter_cons]
    by_cases hhd : hd.1 = k
    · have h1 : ¬((k, v).1 = k2) := fun h => hk h.symm
      have h2 : ¬(hd.1 = k2) := fun h => hk (h ▸ hhd)
      rw [if_pos hhd]
      simp only [h1, h2, decide_False, Bool.false_eq_true, if_false]
      exact ih
    · rw [if_neg hhd]
      by_cases hhd2 : hd.1 = k2 <;> simp [hhd2, ih]

/-- Map.set with key k leaves the entries of any other key unchanged. -/
theorem jsMapSet_filter_ne (l : List (String × String)) (k v k2 : String)
    (hk : k2 ≠ k) :
    (jsMapSet l k v).filter (fun p => p.1 = k2)
      = l.filter (fun p => p.1 = k2) := by
  unfold jsMapSet
  by_cases hany : (l.any fun p => decide (p.1 = k)) = true
  · rw [if_pos hany]
    exact filter_map_set_ne l k v k2 hk
  · rw [if_neg hany, List.filter_append]
    have h1 : ¬((k, v).1 = k2) := fun h => hk h.symm
    simp [h1]

/-- C4 (amended): when the remote and base names coincide, the color map has
exactly one entry for that name; its color is the base color (the base
assignment overwrites the remote assignment), except that the show-all
filter together with the reserved wildcard name overwrites it once more
with the empty wildcard color. -/
theorem colorMap_shared_remote_base_name (g : HistoryItemGroup)
    (r b : HistoryItemGroupRef) (filter : FilterValue)
    (hr : g.remote = some r) (hb : g.base = some b) (hn : r.name = b.name) :
    (getGraphColorMap g filter).filter (fun p => p.1 = b.name) =
      [(b.name,
        if filter = FilterValue.all ∧ b.name = "*" then ""
        else historyItemGroupBase)] := by
  simp only [getGraphColorMap, hr, hb, hn]
  have hnd1 : ((jsMapSet [(g.name, historyItemGroupLocal)] b.name
      historyItemGroupRemote).map Prod.fst).Nodup :=
    jsMapSet_nodupKeys _ _ _ (by simp)
  have hnd2 : ((jsMapSet (jsMapSet [(g.name, historyItemGroupLocal)] b.name
      historyItemGroupRemote) b.name historyItemGroupBase).map Prod.fst).Nodup :=
    jsMapSet_nodupKeys _ _ _ hnd1
  have h2 : (jsMapSet (jsMapSet [(g.name, historyItemGroupLocal)] b.name
        historyItemGroupRemote) b.name historyItemGroupBase).filter
        (fun p => p.1 = b.name)
      = [(b.name, historyItemGroupBase)] :=
    jsMapSet_filter_self _ _ _ hnd1
  by_cases hall : filter = FilterValue.all
  · rw [if_pos hall]
    by_cases hstar : b.name = "*"
    · rw [← hstar, jsMapSet_filter_self _ _ _ hnd2]
      simp [hall, hstar]
    · rw [jsMapSet_filter_ne _ _ _ _ hstar, h2]
      simp [hall, hstar]
  · rw [if_neg hall, h2]
    simp [hall]

/-- The remote and base counterpart sharing the reserved wildcard name, used
by the C4 counterexample. -/
def c4SharedRef : HistoryItemGroupRef :=
  { id := "refs/remotes/star", name := "*", revision := some "r1" }

/-- Group whose remote and base names are both the wildcard key. -/
def c4Group : HistoryItemGroup :=
  { id := "refs/heads/main", name := "main", revision := some "c1"
    remote := some c4SharedRef, base := some c4SharedRef }

/-- C4 counterexample: with the show-all filter and a group whose remote and
base share the wildcard key as their name, the single entry for that name
carries the empty wildcard color, not the base color. -/
theorem colorMap_shared_name_counterexample :
    (getGraphColorMap c4Group FilterValue.all).filter (fun p => p.1 = "*")
        = [("*", "")] ∧
      ("*", ("" : String)) ≠ ("*", historyItemGroupBase) := by
  exact ⟨rfl, by decide⟩

/-- The remote and base counterpart used by the C4 witness. -/
def c4WitnessRef : HistoryItemGroupRef :=
  { id := "refs/remotes/origin/main", name := "origin/main"
    revision := some "r1" }

/-- Group of the C4 witness: remote and base are the identical counterpart
origin/main. -/
def c4WitnessGroup : HistoryItemGroup :=
  { id := "refs/heads/main", name := "main", revision := some "c1"
    remote := some c4WitnessRef, base := some c4WitnessRef }

/-- Witness for the amended C4 at the spec's own scenario: name main, remote
and base both origin/main; the one entry for origin/main has the base
color. -/
theorem colorMap_shared_remote_base_name_witness :
    (getGraphColorMap c4WitnessGroup FilterValue.all).filter
        (fun p => p.1 = c4WitnessRef.name) =
      [(c4WitnessRef.name,
        if FilterValue.all = FilterValue.all ∧ c4WitnessRef.name = "*" then ""
        else historyItemGroupBase)] :=
  colorMap_shared_remote_base_name c4WitnessGroup c4WitnessRef c4WitnessRef
    FilterValue.all rfl rfl rfl

/- ## C3: what happens when the fetch fails -/

/-- The fetch condition at line 709: no cached state yet, or state marked
loadMore. -/
def shouldFetch {Item : Type} (m : Model Item) : Bool :=
  match m.state with
  | none => true
  | some st => st.loadMore

/-- C3 (amended, view-model boundary): a rejected provideHistoryItems
promise propagates out of getHistoryItems unchanged; the state write at line
725 is never reached, so nothing is cached. -/
theorem getHistoryItems_propagates_rejection {Item : Type} (m : Model Item)
    (hp : ProviderIface Item) (e : String)
    (hrep : m.repositoryPresent = true)
    (hhp : m.historyProvider = some hp)
    (hfetch : shouldFetch m = true)
    (hg : resolvedGroup m ≠ none)
    (herr : hp.provideHistoryItems (mkProviderOptions m (cachedItems m).length)
      = Except.error e) :
    getHistoryItems m =
      ⟨[mkProviderOptions m (cachedItems m).length], Except.error e⟩ := by
  obtain ⟨rep, hpv, filt, ps, st?⟩ := m
  have hrep1 : rep = true := hrep
  have hhp1 : hpv = some hp := hhp
  subst hrep1
  subst hhp1
  cases st? with
  | some st =>
    have hlm : st.loadMore = true := hfetch
    simp only [cachedItems] at herr
    unfold getHistoryItems fetchPage
    simp [hlm, herr, cachedItems]
  | none =>
    cases hgv : hp.currentHistoryItemGroup with
    | none => exact absurd (by simp [resolvedGroup, hgv]) hg
    | some g =>
      simp only [cachedItems, List.length_nil] at herr
      unfold getHistoryItems fetchPage
      simp [hgv, herr, cachedItems]

/-- Provider of the C3 amended-theorem witness: its promise always
rejects. -/
def c3RejectingProvider : ProviderIface Nat :=
  { currentHistoryItemGroup := some c1Group
    provideHistoryItems := fun _ => Except.error "fatal: not a git repository" }

/-- Model of the C3 amended-theorem witness. -/
def c3Model : Model Nat :=
  { repositoryPresent := true, historyProvider := some c3RejectingProvider
    filter := FilterValue.all, pageSize := 50, state := none }

/-- Witness for the amended C3 at a concrete rejecting provider. -/
theorem getHistoryItems_propagates_rejection_witness :
    getHistoryItems c3Model =
      ⟨[mkProviderOptions c3Model (cachedItems c3Model).length],
        Except.error "fatal: not a git repository"⟩ :=
  getHistoryItems_propagates_rejection c3Model c3RejectingProvider
    "fatal: not a git repository" rfl rfl rfl (by simp [resolvedGroup, c3Model,
      c3RejectingProvider]) rfl

/- ## Git history provider (extensions/git/src/historyProvider.ts) -/

/-- Change statistics of a commit (shortStat). -/
structure CommitShortStat where
  files : Nat
  insertions : Nat
  deletions : Nat
deriving Repr, DecidableEq

/-- A parsed git commit as surfaced by Repository.log. -/
structure Commit where
  hash : String
  parents : List String
  message : String
  authorName : Option String
  authorDate : Option Nat
  shortStat : Option CommitShortStat
  refNames : List String
deriving Repr, DecidableEq

/-- Options of one Repository.log call (only the fields this provider
sets). -/
structure LogOptions where
  refNames : List String := []
  shortStats : Bool := false
  maxEntries : Option Int := none
  range : Option String := none
  skip : Option Nat := none
  maxParents : Option Nat := none
  silent : Bool := false
deriving Repr, DecidableEq

/-- A label attached to a history item: the title with the matched prefix
stripped, and the theme icon id. -/
structure HistoryItemLabel where
  title : String
  icon : String
deriving Repr, DecidableEq

/-- A history item as built by GitHistoryProvider.provideHistoryItems
(lines 117-131). -/
structure SCMHistoryItem where
  id : String
  parentIds : List String
  message : String
  author : Option String
  icon : String
  displayId : String
  timestamp : Option Nat
  statistics : CommitShortStat
  labels : Option (List HistoryItemLabel)
deriving Repr, DecidableEq

/-- SourceControlHistoryOptions: the group ids (possibly absent), the limit
(absent, a number, or an object carrying a limit commit id), and the skip
offset. -/
structure SourceControlHistoryOptions where
  historyItemGroupIds : Option (List String)
  limit : Option (Int ⊕ String)
  skip : Option Nat
deriving Repr, DecidableEq

/-- The git repository collaborators the provider awaits; every operation is
fallible (a git invocation error is a rejection). -/
structure GitRepositoryEnv where
  getCommit : String → Except String Commit
  getEmptyTree : Except String String
  log : LogOptions → Except String (List Commit)
  getMergeBase : String → String → List String → Except String (Option String)

/-- The prefix-to-icon table this.historyItemLabels (lines 31-36), in
insertion order. -/
def historyItemLabelsTable : List (String × String) :=
  [("HEAD -> refs/heads/", "target"),
   ("tag: refs/tags/", "tag"),
   ("refs/heads/", "git-branch"),
   ("refs/remotes/", "cloud")]

/-- GitHistoryProvider.resolveHistoryItemLabels (lines 211-224): for each
commit ref name, the first matching prefix of the table contributes a label
with that prefix stripped. -/
def resolveHistoryItemLabels (commit : Commit) : List HistoryItemLabel :=
  commit.refNames.foldl
    (fun acc label =>
      match historyItemLabelsTable.find? (fun kv => label.startsWith kv.1) with
      | some kv => acc ++ [{ title := label.drop kv.1.length, icon := kv.2 }]
      | none => acc) []

/-- The commit-to-history-item mapping (lines 117-131).  The emojify message
transformation (emoji.ts, not under src/) is supplied by the caller. -/
def commitToHistoryItem (emojify : String → String) (commit : Commit) :
    SCMHistoryItem :=
  let labels := resolveHistoryItemLabels commit
  { id := commit.hash
    parentIds := commit.parents
    message := emojify commit.message
    author := commit.authorName
    icon := "git-commit"
    displayId := commit.hash.take 8
    timestamp := commit.authorDate
    statistics := commit.shortStat.getD { files := 0, insertions := 0, deletions := 0 }
    labels := if labels.length ≠ 0 then some labels else none }

/-- Array.from(new Set(...)) at line 94: deduplication keeping the first
occurrence of each id, in order. -/
def dedupRefNames (ids : List String) : List String :=
  ids.foldl (fun acc x => if x ∈ acc then acc else acc ++ [x]) []

/-- Result of one provideHistoryItems invocation on the git provider: the
returned item array, the Repository.log calls made, and the error messages
logged.  The try/catch at lines 98-135 turns every internal failure into a
logged error plus an empty result, so the invocation itself never
rejects. -/
structure GitProvideResult where
  items : List SCMHistoryItem
  logCalls : List LogOptions
  errors : List String
deriving Repr, DecidableEq

/-- The error message logged at line 133 (the options payload of the
original message is omitted from the model). -/
def provideHistoryItemsErrorMessage (e : String) : String :=
  "[GitHistoryProvider][provideHistoryItems] Failed to get history items: " ++ e

/-- GitHistoryProvider.provideHistoryItems (lines 88-136).  No current group
or absent group ids yield an empty result.  Otherwise the ref names are
deduplicated, the limit determines maxEntries (with default 50) or, for a
limit id, a range computed from the limit commit's first parent or the empty
tree; the skip is forwarded; the log call runs silent.  Any failure inside
the try block is caught: it is logged and an empty array is returned. -/
def gitProvideHistoryItems (env : GitRepositoryEnv) (emojify : String → String)
    (currentHistoryItemGroup : Option HistoryItemGroup)
    (options : SourceControlHistoryOptions) : GitProvideResult :=
  match currentHistoryItemGroup, options.historyItemGroupIds with
  | none, _ => { items := [], logCalls := [], errors := [] }
  | some _, none => { items := [], logCalls := [], errors := [] }
  | some _, some ids =>
    let refNames := dedupRefNames ids
    let logOptions : LogOptions := { refNames := refNames, shortStats := true }
    let step1 : Except String LogOptions :=
      match options.limit with
      | none => Except.ok { logOptions with maxEntries := some 50 }
      | some (Sum.inl n) => Except.ok { logOptions with maxEntries := some n }
      | some (Sum.inr limitId) =>
        match env.getCommit limitId with
        | Except.error e => Except.error e
        | Except.ok commit =>
          match commit.parents with
          | p :: _ => Except.ok { logOptions with range := some (p ++ "..") }
          | [] =>
            match env.getEmptyTree with
            | Except.error e => Except.error e
            | Except.ok t => Except.ok { logOptions with range := some (t ++ "..") }
    match step1 with
    | Except.error e =>
      { items := [], logCalls := []
        errors := [provideHistoryItemsErrorMessage e] }
    | Except.ok lo1 =>
      let lo2 := match options.skip with
        | some n => { lo1 with skip := some n }
        | none => lo1
      let callOptions := { lo2 with silent := true }
      match env.log callOptions with
      | Except.error e =>
        { items := [], logCalls := [callOptions]
          errors := [provideHistoryItemsErrorMessage e] }
      | Except.ok commits =>
        { items := commits.map (commitToHistoryItem emojify)
          logCalls := [callOptions], errors := [] }

/-- Conversion of a view-model request into provider options: the view model
always passes all three fields, with a numeric limit. -/
def scmToGitOptions (opts : ProviderOptions) : SourceControlHistoryOptions :=
  { historyItemGroupIds := some opts.historyItemGroupIds
    limit := some (Sum.inl opts.limit)
    skip := some opts.skip }

/-- The git history provider seen through the view-model interface: its
promise never rejects (internal failures are caught at lines 132-135) and
resolves with the item array. -/
def gitProviderIface (env : GitRepositoryEnv) (emojify : String → String)
    (currentHistoryItemGroup : Option HistoryItemGroup) :
    ProviderIface SCMHistoryItem :=
  { currentHistoryItemGroup := currentHistoryItemGroup
    provideHistoryItems := fun opts =>
      Except.ok (some (gitProvideHistoryItems env emojify
        currentHistoryItemGroup (scmToGitOptions opts)).items) }

/-- Git environment of the C3 counterexample: the log invocation always
fails. -/
def c3FailEnv : GitRepositoryEnv :=
  { getCommit := fun _ => Except.error "fatal: bad object"
    getEmptyTree := Except.ok "4b825dc642cb6eb9a060e54bf8d69288fbee4904"
    log := fun _ => Except.error "fatal: bad revision"
    getMergeBase := fun _ _ _ => Except.error "fatal: bad revision" }

/-- View model composed with the git provider over the failing
environment. -/
def c3FailModel : Model SCMHistoryItem :=
  { repositoryPresent := true
    historyProvider := some (gitProviderIface c3FailEnv id (some c1Group))
    filter := FilterValue.all
    pageSize := 50
    state := none }

/-- The model cached after the failed fetch: an empty item list marked
final. -/
def c3FailModelAfter : Model SCMHistoryItem :=
  { repositoryPresent := true
    historyProvider := some (gitProviderIface c3FailEnv id (some c1Group))
    filter := FilterValue.all
    pageSize := 50
    state := some { currentHistoryItemGroup := c1Group, items := [], loadMore := false } }

/-- C3 counterexample: the underlying git fetch fails (the provider logs the
failure), yet the composed getHistoryItems resolves normally with an empty
list and caches the empty page as final (loadMore cleared); no error reaches
the caller. -/
theorem gitFailure_not_propagated_counterexample :
    (gitProvideHistoryItems c3FailEnv id (some c1Group)
        (scmToGitOptions (mkProviderOptions c3FailModel 0))).errors =
      [provideHistoryItemsErrorMessage "fatal: bad revision"] ∧
    getHistoryItems c3FailModel =
      ⟨[mkProviderOptions c3FailModel 0],
        Except.ok ([], c3FailModelAfter)⟩ :=
  ⟨rfl, rfl⟩

/- ## C9: common-ancestor resolution failures are caught -/

/-- The error message logged at line 201. -/
def resolveAncestorErrorMessage (historyItemGroupIds : List String)
    (e : String) : String :=
  "[GitHistoryProvider][resolveHistoryItemGroupCommonAncestor] Failed to resolve common ancestor for "
    ++ String.intercalate "," historyItemGroupIds ++ ": " ++ e

/-- The try block of resolveHistoryItemGroupCommonAncestor (lines 173-199):
no ids resolve to nothing; a single id equal to the current group's id uses
the remote, else the base, else the first root commit of HEAD; two or more
ids use their merge base; a single id different from the current group's id
falls through to the no-ancestor result. -/
def resolveAncestorInner (env : GitRepositoryEnv)
    (currentHistoryItemGroup : Option HistoryItemGroup)
    (historyItemGroupIds : List String) : Except String (Option String) :=
  match historyItemGroupIds with
  | [] => Except.ok none
  | [id0] =>
    match currentHistoryItemGroup with
    | some g =>
      if id0 = g.id then
        match g.remote with
        | some r => env.getMergeBase id0 r.id []
        | none =>
          match g.base with
          | some b => env.getMergeBase id0 b.id []
          | none =>
            match env.log { refNames := ["HEAD"], maxParents := some 0 } with
            | Except.error e => Except.error e
            | Except.ok commits =>
              match commits with
              | c :: _ => Except.ok (some c.hash)
              | [] => Except.ok none
      else Except.ok none
    | none => Except.ok none
  | id0 :: id1 :: rest => env.getMergeBase id0 id1 rest

/-- GitHistoryProvider.resolveHistoryItemGroupCommonAncestor (lines
172-205): the try block wrapped in the catch of lines 200-202, which logs
the failure; the catch and the fall-through both return the no-ancestor
value.  The second component collects the logged error messages. -/
def resolveHistoryItemGroupCommonAncestor (env : GitRepositoryEnv)
    (currentHistoryItemGroup : Option HistoryItemGroup)
    (historyItemGroupIds : List String) : Option String × List String :=
  match resolveAncestorInner env currentHistoryItemGroup historyItemGroupIds with
  | Except.ok r => (r, [])
  | Except.error e =>
    (none, [resolveAncestorErrorMessage historyItemGroupIds e])

/-- C9: whenever common-ancestor resolution fails internally, the operation
returns the no-ancestor value instead of rejecting, and the failure is
logged. -/
theorem resolveAncestor_catches_failures (env : GitRepositoryEnv)
    (g? : Option HistoryItemGroup) (ids : List String) (e : String)
    (herr : resolveAncestorInner env g? ids = Except.error e) :
    resolveHistoryItemGroupCommonAncestor env g? ids =
      (none, [resolveAncestorErrorMessage ids e]) := by
  unfold resolveHistoryItemGroupCommonAncestor
  rw [herr]

/-- Git environment of the C9 witness: merge-base resolution fails. -/
def c9Env : GitRepositoryEnv :=
  { getCommit := fun _ => Except.error "fatal: bad object"
    getEmptyTree := Except.ok "4b825dc642cb6eb9a060e54bf8d69288fbee4904"
    log := fun _ => Except.ok []
    getMergeBase := fun _ _ _ => Except.error "fatal: not a valid object name" }

/-- Witness for C9 at a concrete failing merge-base call. -/
theorem resolveAncestor_catches_failures_witness :
    resolveHistoryItemGroupCommonAncestor c9Env (some c1Group) ["a", "b"] =
      (none,
        [resolveAncestorErrorMessage ["a", "b"] "fatal: not a valid object name"]) :=
  resolveAncestor_catches_failures c9Env (some c1Group) ["a", "b"]
    "fatal: not a valid object name" rfl

/- ## C10: ref names forwarded to the log call are deduplicated -/

/-- The fold underlying dedupRefNames keeps the accumulator free of
duplicates. -/
theorem dedupAux_nodup (ids : List String) (acc : List String)
    (h : acc.Nodup) :
    (ids.foldl (fun acc x => if x ∈ acc then acc else acc ++ [x]) acc).Nodup := by
  induction ids generalizing acc with
  | nil => exact h
  | cons hd tl ih =>
    rw [List.foldl_cons]
    by_cases hmem : hd ∈ acc
    · rw [if_pos hmem]
      exact ih acc h
    · rw [if_neg hmem]
      refine ih _ ?_
      rw [List.nodup_append]
      refine ⟨h, List.nodup_singleton hd, ?_⟩
      intro a ha hb
      rw [List.mem_singleton] at hb
      exact hmem (hb ▸ ha)

/-- Membership in the fold underlying dedupRefNames. -/
theorem dedupAux_mem (ids : List String) (acc : List String) (x : String) :
    x ∈ ids.foldl (fun acc y => if y ∈ acc then acc else acc ++ [y]) acc ↔
      x ∈ acc ∨ x ∈ ids := by
  induction ids generalizing acc with
  | nil => simp
  | cons hd tl ih =>
    rw [List.foldl_cons]
    by_cases hmem : hd ∈ acc
    · rw [if_pos hmem, ih]
      constructor
      · rintro (h | h)
        · exact Or.inl h
        · exact Or.inr (List.mem_cons_of_mem hd h)
      · rintro (h | h)
        · exact Or.inl h
        · rcases List.mem_cons.mp h with h | h
          · exact Or.inl (h ▸ hmem)
          · exact Or.inr h
    · rw [if_neg hmem, ih]
      simp only [List.mem_append, List.mem_singleton, List.mem_cons]
      tauto

/-- Each id occurs exactly once in the deduplicated ref names: once when
requested (also when requested repeatedly), never otherwise. -/
theorem dedupRefNames_count (ids : List String) (x : String) :
    (dedupRefNames ids).count x = if x ∈ ids then 1 else 0 := by
  have hnd : (dedupRefNames ids).Nodup := dedupAux_nodup ids [] List.nodup_nil
  have hmem : x ∈ dedupRefNames ids ↔ x ∈ ids := by
    rw [dedupRefNames, dedupAux_mem]
    simp
  by_cases h : x ∈ ids
  · rw [if_pos h]
    exact List.count_eq_one_of_mem hnd (hmem.mpr h)
  · rw [if_neg h]
    exact List.count_eq_zero_of_not_mem (fun hc => h (hmem.mp hc))

/-- Every Repository.log call issued by provideHistoryItems carries the
deduplicated ref names. -/
theorem gitProvideHistoryItems_refNames (env : GitRepositoryEnv)
    (emojify : String → String) (g : HistoryItemGroup)
    (lim : Option (Int ⊕ String)) (skp : Option Nat) (ids : List String)
    (lo : LogOptions)
    (hlo : lo ∈ (gitProvideHistoryItems env emojify (some g)
      ⟨some ids, lim, skp⟩).logCalls) :
    lo.refNames = dedupRefNames ids := by
  unfold gitProvideHistoryItems at hlo
  dsimp only at hlo
  split at hlo
  · simp at hlo
  · rename_i step1 lo1 heq1
    have h1 : lo1.refNames = dedupRefNames ids := by
      split at heq1
      · injection heq1 with h2
        subst h2
        rfl
      · injection heq1 with h2
        subst h2
        rfl
      · split at heq1
        · cases heq1
        · split at heq1
          · injection heq1 with h2
            subst h2
            rfl
          · split at heq1
            · cases heq1
            · injection heq1 with h2
              subst h2
              rfl
    cases skp with
    | some n =>
      dsimp only at hlo
      split at hlo <;>
        · simp only [List.mem_singleton] at hlo
          subst hlo
          simpa using h1
    | none =>
      dsimp only at hlo
      split at hlo <;>
        · simp only [List.mem_singleton] at hlo
          subst hlo
          simpa using h1

/-- C10: every set of ref names forwarded to the repository log call
contains each requested history item group id exactly once, even when the
requested list contains duplicates. -/
theorem provideHistoryItems_dedups_refNames (env : GitRepositoryEnv)
    (emojify : String → String) (g? : Option HistoryItemGroup)
    (options : SourceControlHistoryOptions) (ids : List String)
    (hids : options.historyItemGroupIds = some ids) (lo : LogOptions)
    (hlo : lo ∈ (gitProvideHistoryItems env emojify g? options).logCalls)
    (x : String) :
    lo.refNames.count x = if x ∈ ids then 1 else 0 := by
  obtain ⟨ids?, lim, skp⟩ := options
  have hids2 : ids? = some ids := hids
  subst hids2
  cases g? with
  | none => simp [gitProvideHistoryItems] at hlo
  | some g =>
    rw [gitProvideHistoryItems_refNames env emojify g lim skp ids lo hlo]
    exact dedupRefNames_count ids x

/-- Git environment of the C10 witness: the log invocation returns no
commits. -/
def c10Env : GitRepositoryEnv :=
  { getCommit := fun _ => Except.error "fatal: bad object"
    getEmptyTree := Except.ok "4b825dc642cb6eb9a060e54bf8d69288fbee4904"
    log := fun _ => Except.ok []
    getMergeBase := fun _ _ _ => Except.ok none }

/-- The request of the C10 witness, with a duplicated id. -/
def c10Options : SourceControlHistoryOptions :=
  { historyItemGroupIds := some ["refs/heads/main", "refs/heads/main", "refs/remotes/origin/main"]
    limit := none
    skip := none }

/-- The log call issued for the C10 witness request. -/
def c10LogCall : LogOptions :=
  { refNames := ["refs/heads/main", "refs/remotes/origin/main"]
    shortStats := true
    maxEntries := some 50
    silent := true }

/-- Witness for C10: the duplicated id is forwarded exactly once. -/
theorem provideHistoryItems_dedups_refNames_witness :
    c10LogCall.refNames.count "refs/heads/main" =
      if "refs/heads/main" ∈
          ["refs/heads/main", "refs/heads/main", "refs/remotes/origin/main"]
        then 1 else 0 :=
  provideHistoryItems_dedups_refNames c10Env id (some c1Group) c10Options
    ["refs/heads/main", "refs/heads/main", "refs/remotes/origin/main"] rfl
    c10LogCall (by decide) "refs/heads/main"

/- ## C5: two load-more invocations before the first completes -/

/-- State of the SCMHistoryViewPane relevant to load more: the
_repositoryLoadMore guard observable, the view model, and the
provideHistoryItems calls accumulated across operations. -/
structure PaneState (Item : Type) where
  repositoryLoadMore : Bool
  vm : Model Item
  calls : List ProviderOptions

/-- The body queued by SCMHistoryViewPane._loadMoreCallback (lines
1070-1082): return immediately when the guard is set; otherwise set the
guard, mark the repository for load more, update the children, and reset
the guard.  Modelled from the spec: _updateChildren funnels through the
update throttler and the tree operation sequencer into the tree widget's
updateChildren (base library, not under src/), which asks
SCMHistoryTreeDataSource.getChildren (lines 565-587), which awaits
getHistoryItems.  A rejection of that chain leaves the guard set: the reset
at line 1080 is never reached. -/
def loadMoreBody {Item : Type} (s : PaneState Item) : PaneState Item :=
  if s.repositoryLoadMore then s
  else
    let vm1 := setLoadMore s.vm true
    let out := getHistoryItems vm1
    match out.outcome with
    | Except.ok (_, vm2) =>
      { repositoryLoadMore := false, vm := vm2, calls := s.calls ++ out.calls }
    | Except.error _ =>
      { repositoryLoadMore := true, vm := vm1, calls := s.calls ++ out.calls }

/-- Modelled from the spec: the _treeLoadMoreSequencer (base library, not
under src/) serializes the queued bodies, so a second _loadMoreCallback
invocation issued before the first completes runs its body right after the
first body finishes. -/
def loadMoreTwice {Item : Type} (s : PaneState Item) : PaneState Item :=
  loadMoreBody (loadMoreBody s)

/-- Provider of the C5 counterexample: one further commit behind each cached
prefix. -/
def c5Provider : ProviderIface Nat :=
  { currentHistoryItemGroup := some c1Group
    provideHistoryItems := fun opts =>
      Except.ok (some (if opts.skip = 1 then [2]
        else if opts.skip = 2 then [3] else [])) }

/-- View model of the C5 counterexample: one cached item. -/
def c5Model : Model Nat :=
  { repositoryPresent := true, historyProvider := some c5Provider
    filter := FilterValue.ids [], pageSize := 1
    state := some { currentHistoryItemGroup := c1Group, items := [1], loadMore := false } }

/-- Pane state of the C5 counterexample. -/
def c5Start : PaneState Nat :=
  { repositoryLoadMore := false, vm := c5Model, calls := [] }

/-- C5 counterexample: two load-more invocations for the same repository
issued before the first fetch completes result in two provideHistoryItems
calls, not one; the second invocation is not a no-op, it fetches the
following page. -/
theorem loadMore_twice_counterexample :
    (loadMoreTwice c5Start).calls.length = 2 ∧
      (loadMoreTwice c5Start).vm.state =
        some { currentHistoryItemGroup := c1Group, items := [1, 2, 3]
               loadMore := false } :=
  ⟨rfl, rfl⟩

/-- C5 (amended): the load-more sequencer serializes the two queued bodies;
when both triggered getHistoryItems calls succeed, the guard is observed
false both times and each invocation contributes its own provider calls:
the final pane state accumulates both call lists and ends with the guard
clear. -/
theorem loadMore_serialized {Item : Type} (s : PaneState Item)
    (l1 l2 : List (HistoryItemViewModel Item)) (m1 m2 : Model Item)
    (hflag : s.repositoryLoadMore = false)
    (h1 : (getHistoryItems (setLoadMore s.vm true)).outcome
      = Except.ok (l1, m1))
    (h2 : (getHistoryItems (setLoadMore m1 true)).outcome
      = Except.ok (l2, m2)) :
    loadMoreTwice s =
      { repositoryLoadMore := false, vm := m2
        calls := s.calls ++ (getHistoryItems (setLoadMore s.vm true)).calls
          ++ (getHistoryItems (setLoadMore m1 true)).calls } := by
  unfold loadMoreTwice loadMoreBody
  rw [hflag]
  simp only [Bool.false_eq_true, if_false, h1, h2, List.append_assoc]

/-- Provider of the C5 amended-theorem witness: always an empty page. -/
def c5wProvider : ProviderIface Nat :=
  { currentHistoryItemGroup := some c1Group
    provideHistoryItems := fun _ => Except.ok (some []) }

/-- View model of the C5 amended-theorem witness. -/
def c5wModel : Model Nat :=
  { repositoryPresent := true, historyProvider := some c5wProvider
    filter := FilterValue.ids [], pageSize := 1
    state := some { currentHistoryItemGroup := c1Group, items := [], loadMore := false } }

/-- Pane state of the C5 amended-theorem witness. -/
def c5wStart : PaneState Nat :=
  { repositoryLoadMore := false, vm := c5wModel, calls := [] }

/-- Witness for the amended C5 at a concrete pane state. -/
theorem loadMore_serialized_witness :
    loadMoreTwice c5wStart =
      { repositoryLoadMore := false, vm := c5wModel
        calls := c5wStart.calls
          ++ (getHistoryItems (setLoadMore c5wStart.vm true)).calls
          ++ (getHistoryItems (setLoadMore c5wModel true)).calls } :=
  loadMore_serialized c5wStart [] [] c5wModel c5wModel rfl rfl rfl
